import Mathlib

/-!
Shallow embedding of the bevy_eventwork synchronization engine.

The definitions below are translated from the Rust sources of the repository:

* `eventwork_sync/src/registry.rs` — server type registry, mutation apply,
  snapshot generation, authorizer.
* `eventwork_sync/src/client_sync.rs` — client-side mutation tracker.
* `eventwork_sync/src/client_registry.rs` — client type registry.
* `eventwork_client/src/context.rs` — client subscription registry and the
  raw component-data store.
* `eventwork_client/src/provider.rs` — the client ingress handler.
* `eventwork_common/src/codec/binary.rs` — the length-prefixed wire codec.

Machine integers are modelled as `Nat` (with explicit `2 ^ 64` bounds where
they matter), `HashMap`s as association lists, and fallible Rust code as
`Option`/`Except` values.  Wire byte strings are `List Nat` where every
element denotes one byte.
-/

namespace Eventwork

/-! ## Association-list model of `HashMap`

`HashMap::insert`, `HashMap::get` and `HashMap::remove` are modelled on
association lists.  Keys are compared with decidable equality; `assocSet`
replaces the first binding when the key is present and appends otherwise,
which matches the single-binding-per-key discipline of a hash map. -/

def assocSet {α β : Type} [DecidableEq α] : List (α × β) → α → β → List (α × β)
  | [], k, v => [(k, v)]
  | (k', v') :: rest, k, v =>
    if k' = k then (k, v) :: rest else (k', v') :: assocSet rest k v

def assocLookup {α β : Type} [DecidableEq α] : List (α × β) → α → Option β
  | [], _ => none
  | (k', v) :: rest, k => if k' = k then some v else assocLookup rest k

def assocRemove {α β : Type} [DecidableEq α] (l : List (α × β)) (k : α) : List (α × β) :=
  l.filter (fun p => p.1 ≠ k)

/-! ## Wire-level data model

`SerializableEntity`, `MutationStatus` and the message types live in
`eventwork_sync/src/messages.rs`, which is not part of the provided tree;
their declarations are modelled from the spec (§3, §6.2, §6.3): an entity id
is a `{ bits: u64 }` struct whose `u64::MAX` value is the `DANGLING`
sentinel, and `MutationStatus` ranges over Ok, NotFound, ValidationError,
Forbidden and InternalError. -/

/-- Modelled from the spec: `SerializableEntity { bits: u64 }` (§6.2). -/
structure SerializableEntity where
  bits : Nat
deriving DecidableEq

/-- Modelled from the spec: `DANGLING = { bits: u64::MAX }` (§6.3). -/
def SerializableEntity.DANGLING : SerializableEntity := ⟨2 ^ 64 - 1⟩

/-- Modelled from the spec: mutation status codes (§3, §6.2). -/
inductive MutationStatus where
  | ok
  | notFound
  | validationError
  | forbidden
  | internalError
deriving DecidableEq

/-- Translation of `QueuedMutation` from `eventwork_sync/src/registry.rs`. -/
structure QueuedMutation where
  connectionId : Nat
  requestId : Option Nat
  entity : SerializableEntity
  componentType : String
  value : List Nat
deriving DecidableEq

/-! ## Server world model and typed registry functions

The ECS world is external to the sync engine (spec §6.5); it is modelled as
the set of live entity ids plus the component store for one registered type
`T`.  The bincode shims of the concrete type `T` are the `decode`/`encode`
fields of `ComponentOps` (in the source they are the monomorphised
`bincode::serde` calls inside `apply_typed_mutation::<T>` and
`snapshot_typed::<T>`). -/

structure ComponentOps (T : Type) where
  decode : List Nat → Option T
  encode : T → Option (List Nat)

/-- World state relevant to one component type `T`: the live entity ids, the
`entity → T` component store, and the allocator cursor for fresh entity ids
(`world.spawn` hands out `nextEntity`). -/
structure WorldModel (T : Type) where
  nextEntity : Nat
  live : List Nat
  comp : List (Nat × T)
deriving DecidableEq

/-- Translation of `apply_typed_mutation::<T>` from `eventwork_sync/src/registry.rs`:
decode the bincode value (failure → `ValidationError`); on the `DANGLING`
sentinel spawn a fresh entity carrying the decoded component (→ `Ok`);
otherwise insert/replace on the target entity when it is live (→ `Ok`) and
answer `NotFound` when it is not. -/
def applyTypedMutation {T : Type} (ops : ComponentOps T) (world : WorldModel T)
    (mutation : QueuedMutation) : MutationStatus × WorldModel T :=
  match ops.decode mutation.value with
  | none => (.validationError, world)
  | some value =>
    if mutation.entity = SerializableEntity.DANGLING then
      (.ok, { nextEntity := world.nextEntity + 1,
              live := world.live ++ [world.nextEntity],
              comp := assocSet world.comp world.nextEntity value })
    else if mutation.entity.bits ∈ world.live then
      (.ok, { world with comp := assocSet world.comp mutation.entity.bits value })
    else
      (.notFound, world)

/-- Translation of `snapshot_typed::<T>` from `eventwork_sync/src/registry.rs`: one
`(entity, bytes)` pair per live entity carrying `T`; an encoding failure is
replaced by the empty byte vector (`unwrap_or_default`). -/
def snapshotTyped {T : Type} (ops : ComponentOps T) (world : WorldModel T) :
    List (SerializableEntity × List Nat) :=
  world.comp.map (fun p => (⟨p.1⟩, (ops.encode p.2).getD []))

/-- Modelled from the spec: the per-frame mutation processing step of §4.7
(the system draining `MutationQueue` lives in `eventwork_sync/src/systems.rs`,
which is not part of the provided tree).  Unknown component type →
`ValidationError`; then the authorizer is consulted and a non-`Ok` verdict is
returned without touching the world (the `MutationAuthorizer` contract in
`registry.rs`); only then is `apply_mutation_fn` invoked and its status
echoed. -/
def processQueuedMutation {T : Type} (descriptor : Option (ComponentOps T))
    (authorize : WorldModel T → QueuedMutation → MutationStatus)
    (world : WorldModel T) (mutation : QueuedMutation) : MutationStatus × WorldModel T :=
  match descriptor with
  | none => (.validationError, world)
  | some ops =>
    let auth := authorize world mutation
    if auth = .ok then applyTypedMutation ops world mutation else (auth, world)

/-! ## Server sync registry (`SyncRegistry`) -/

/-- Translation of `ComponentRegistration` from `eventwork_sync/src/registry.rs`.  The
`apply_mutation`/`snapshot_all` function-pointer fields are elided: they play
no part in the registration logic (they are modelled separately by
`applyTypedMutation`/`snapshotTyped`). -/
structure ComponentRegistration where
  typeId : Nat
  typeName : String
  maxUpdatesPerFrame : Option Nat
deriving DecidableEq

/-- Translation of `SyncRegistry` from `eventwork_sync/src/registry.rs`. -/
structure SyncRegistry where
  components : List ComponentRegistration
deriving DecidableEq

/-- Translation of `SyncRegistry::register_component`: a registration whose `TypeId` is
already present is dropped; otherwise it is appended.  The type name plays no
part in the check. -/
def SyncRegistry.registerComponent (r : SyncRegistry) (reg : ComponentRegistration) :
    SyncRegistry :=
  if r.components.any (fun c => c.typeId = reg.typeId) then r
  else { components := r.components ++ [reg] }

/-- The short-name derivation in `register_component::<T>`
(`full_type_name.rsplit("::").next().unwrap_or(full_type_name)`): the suffix
of the type path after the last `::` separator. -/
def shortNameAux : List Char → List Char → List Char
  | acc, [] => acc.reverse
  | _acc, ':' :: ':' :: rest => shortNameAux [] rest
  | acc, c :: rest => shortNameAux (c :: acc) rest

def shortTypeName (fullTypeName : String) : String :=
  ⟨shortNameAux [] fullTypeName.toList⟩

/-! ## Wire codec (`eventwork_common/src/codec/binary.rs`)

`EventworkBincodeCodec` frames a bincode-serialized `NetworkPacket` behind an
8-byte little-endian length prefix.  The codec calls the legacy
`bincode::serialize`/`bincode::deserialize` API, whose encoding is fixed-int
little-endian with trailing bytes permitted on decode: a `u64` is 8 LE bytes,
and a `String` or `Vec<u8>` is a `u64` byte length followed by the bytes. -/

/-- Little-endian byte decomposition `n.to_le_bytes()`, truncated/zero-extended to `k` bytes (little endian). -/
def natToLEBytes : Nat → Nat → List Nat
  | 0, _ => []
  | k + 1, n => n % 256 :: natToLEBytes k (n / 256)

/-- Little-endian byte recomposition `u64::from_le_bytes`, generalised to any byte count. -/
def leBytesToNat : List Nat → Nat
  | [] => 0
  | b :: rest => b + 256 * leBytesToNat rest

/-- The `NetworkPacket` the codec carries; its fields are the ones the codec
constructs and consumes in `binary.rs` (`type_name`, `schema_hash`, `data`).
The string is represented by its UTF-8 bytes. -/
structure NetworkPacket where
  type_name : List Nat
  schema_hash : Nat
  data : List Nat
deriving DecidableEq

/-- Translation of `NetworkError::Serialization`, the only error the codec produces. -/
inductive NetworkError where
  | serialization
deriving DecidableEq

/-- Legacy-bincode serialization of a `NetworkPacket`: length-prefixed string
bytes, fixed 8-byte hash, length-prefixed data bytes. -/
def serializePacket (p : NetworkPacket) : List Nat :=
  natToLEBytes 8 p.type_name.length ++
    (p.type_name ++ (natToLEBytes 8 p.schema_hash ++ (natToLEBytes 8 p.data.length ++ p.data)))

/-- Read a fixed-int `u64` (8 LE bytes) off the front of the input. -/
def readLE8 (l : List Nat) : Option (Nat × List Nat) :=
  if l.length < 8 then none else some (leBytesToNat (l.take 8), l.drop 8)

/-- Read `n` raw bytes off the front of the input. -/
def readBytes (n : Nat) (l : List Nat) : Option (List Nat × List Nat) :=
  if l.length < n then none else some (l.take n, l.drop n)

/-- Legacy-bincode deserialization of a `NetworkPacket`.  Trailing bytes are
ignored, as `bincode::deserialize` is configured with
`allow_trailing_bytes`. -/
def deserializePacket (l : List Nat) : Option NetworkPacket :=
  match readLE8 l with
  | none => none
  | some (nameLen, r1) =>
    match readBytes nameLen r1 with
    | none => none
    | some (name, r2) =>
      match readLE8 r2 with
      | none => none
      | some (hash, r3) =>
        match readLE8 r3 with
        | none => none
        | some (dataLen, r4) =>
          match readBytes dataLen r4 with
          | none => none
          | some (dataBytes, _) => some ⟨name, hash, dataBytes⟩

/-- Translation of `EventworkBincodeCodec::encode`: serialize the packet, prepend its byte
length as a `u64` LE prefix. -/
def EventworkBincodeCodec.encode (p : NetworkPacket) : List Nat :=
  let encodedPacket := serializePacket p
  natToLEBytes 8 encodedPacket.length ++ encodedPacket

/-- Translation of `EventworkBincodeCodec::decode`: reject inputs shorter than the 8-byte
prefix, read the prefix into `_length` (which the source then discards), and
bincode-deserialize everything after the prefix. -/
def EventworkBincodeCodec.decode (val : List Nat) : Except NetworkError NetworkPacket :=
  if val.length < 8 then .error .serialization
  else
    match deserializePacket (val.drop 8) with
    | some packet => .ok packet
    | none => .error .serialization

/-! ## Sync protocol messages

Declared in `eventwork_sync/src/messages.rs` (not part of the provided
tree); the variants and fields are modelled from the spec (§3, §6.2) and
from their construction sites in `context.rs` and `client_sync.rs`. -/

/-- Modelled from the spec: `Subscribe { subscription_id, component_type, entity }`. -/
structure SubscriptionRequest where
  subscriptionId : Nat
  componentType : String
  entity : Option SerializableEntity
deriving DecidableEq

/-- Modelled from the spec: `Unsubscribe { subscription_id }`. -/
structure UnsubscribeRequest where
  subscriptionId : Nat
deriving DecidableEq

/-- Modelled from the spec: `Mutate { request_id, entity, component_type, value }`. -/
structure MutateComponent where
  requestId : Option Nat
  entity : SerializableEntity
  componentType : String
  value : List Nat
deriving DecidableEq

/-- Modelled from the spec: the client→server envelope variants (§6.2). -/
inductive SyncClientMessage where
  | subscription (request : SubscriptionRequest)
  | unsubscribe (request : UnsubscribeRequest)
  | mutate (request : MutateComponent)
deriving DecidableEq

/-- Modelled from the spec: `SyncItem` variants (§3). -/
inductive SyncItem where
  | snapshot (subscriptionId : Nat) (entity : SerializableEntity)
      (componentType : String) (value : List Nat)
  | update (subscriptionId : Nat) (entity : SerializableEntity)
      (componentType : String) (value : List Nat)
  | componentRemoved (subscriptionId : Nat) (entity : SerializableEntity)
      (componentType : String)
  | entityRemoved (subscriptionId : Nat) (entity : SerializableEntity)
deriving DecidableEq

/-- Modelled from the spec: `MutationResponse { request_id, status, message }`. -/
structure MutationResponse where
  requestId : Option Nat
  status : MutationStatus
  message : Option String
deriving DecidableEq

/-! ## Client ingress handler (`eventwork_client/src/provider.rs`)

`SyncContext.component_data` (`context.rs`) is the raw store
`(entity_id, component_name) → bytes`; it is modelled as an association
list.  `handle_sync_item` is the ingress routine the `SyncProvider` effect
calls for every `SyncItem` of a received batch. -/

/-- Client-side error type (`eventwork_client/src/error.rs` surface used by
the ingress path). -/
inductive SyncError where
  | deserializationFailed (componentName : String) (message : String)
deriving DecidableEq

/-- The raw component-data store `component_data : (u64, String) → Vec<u8>`. -/
def RawStore : Type := List ((Nat × String) × List Nat)

/-- Translation of `handle_sync_item` from `eventwork_client/src/provider.rs`, translated
branch by branch: every arm only logs (on wasm32) and returns `Ok(())`.
None of the arms reads or writes the raw store — the store update marked
`TODO` in the source is absent — so the store is returned unchanged. -/
def handleSyncItem (store : RawStore) (item : SyncItem) : Except SyncError Unit × RawStore :=
  match item with
  | .snapshot _ _ _ _ => (.ok (), store)
  | .update _ _ _ _ => (.ok (), store)
  | .componentRemoved _ _ _ => (.ok (), store)
  | .entityRemoved _ _ => (.ok (), store)

/-! ## Client mutation tracker (`eventwork_sync/src/client_sync.rs`) -/

/-- Translation of `MutationState` from `client_sync.rs`. -/
structure MutationState where
  requestId : Nat
  status : Option MutationStatus
  message : Option String
deriving DecidableEq

/-- Translation of `MutationState::new_pending`. -/
def MutationState.newPending (requestId : Nat) : MutationState :=
  ⟨requestId, none, none⟩

/-- Translation of `ComponentTypeRegistry` from `eventwork_sync/src/client_registry.rs`,
restricted to the serializer direction used by `SyncClient::mutate`.
`serialize_by_name` fails when the type name is unregistered or when the
per-type JSON→bincode conversion fails; both failure modes collapse to
`none` here.  The JSON value type is abstracted as `J`. -/
structure ComponentTypeRegistry (J : Type) where
  serializers : List (String × (J → Option (List Nat)))

def ComponentTypeRegistry.serializeByName {J : Type} (r : ComponentTypeRegistry J)
    (typeName : String) (value : J) : Option (List Nat) :=
  match assocLookup r.serializers typeName with
  | none => none
  | some serializer => serializer value

/-- The mutable fields of `SyncClient`: the request-id allocator and the
tracked-mutation map. -/
structure SyncClientState where
  nextRequestId : Nat
  mutations : List (Nat × MutationState)
deriving DecidableEq

/-- Translation of `SyncClient::mutate`: allocate `request_id` (pre-incremented, so the
first call returns 1), record the pending state, then convert the JSON
value through the registry; on conversion failure log and return the id
without sending, otherwise send one `Mutate` envelope.  The returned triple
is (request_id, new client state, messages handed to `send`). -/
def SyncClient.mutate {J : Type} (registry : ComponentTypeRegistry J)
    (s : SyncClientState) (entity : SerializableEntity) (componentType : String)
    (value : J) : Nat × SyncClientState × List SyncClientMessage :=
  let requestId := s.nextRequestId + 1
  let s1 : SyncClientState :=
    { nextRequestId := requestId,
      mutations := assocSet s.mutations requestId (MutationState.newPending requestId) }
  match registry.serializeByName componentType value with
  | none => (requestId, s1, [])
  | some valueBytes =>
    (requestId, s1, [.mutate ⟨some requestId, entity, componentType, valueBytes⟩])

/-- Translation of `SyncClient::handle_mutation_response`: responses without a
`request_id` are dropped; otherwise the entry API updates the tracked state
in place (`and_modify`) or inserts a fresh one (`or_insert_with`). -/
def SyncClient.handleMutationResponse (s : SyncClientState)
    (response : MutationResponse) : SyncClientState :=
  match response.requestId with
  | none => s
  | some requestId =>
    match assocLookup s.mutations requestId with
    | some state =>
      let updated : MutationState :=
        { state with status := some response.status, message := response.message }
      { s with mutations := assocSet s.mutations requestId updated }
    | none =>
      let inserted : MutationState := ⟨requestId, some response.status, response.message⟩
      { s with mutations := assocSet s.mutations requestId inserted }

/-! ## Client subscription registry (`eventwork_client/src/context.rs`)

`SyncContext` keys its signal cache by `(TypeId, params)` with an empty
params string; since one component type determines one key, the key is
represented here by the component name.  The cache stores only a `Weak`
handle to the typed view: `subscribe_component` creates `signal_arc`, puts
`Arc::downgrade` of it into the cache, and returns `signal.read_only()` —
the `ReadSignal` is a plain arena handle, so no strong `Arc` reference
survives the call.  A cache entry therefore can never upgrade at any later
lookup; the `Bool` of an entry records whether its weak handle can still
upgrade, and entries are written with `false`.  (Independently, the
cache-hit path downcasts the stored `dyn Any` — whose concrete type is
`RwSignal<…>` — to `Arc<RwSignal<…>>`, which can never match.)

The `Subscribe` send is gated on the transport reaching `Open`; the effect
timing is elided and the emitted message list of each call records what is
(eventually) sent. -/

/-- The mutable fields of `SyncContext` that govern subscriptions: the
`component_type → (subscription_id, ref_count)` map, the id allocator, the
signal cache (`viewId` standing for the identity of the cached typed view),
and the allocator for fresh views. -/
structure SyncContextState where
  subscriptions : List (String × Nat × Nat)
  nextSubscriptionId : Nat
  signalCache : List (String × Nat × Bool)
  nextViewId : Nat
deriving DecidableEq

/-- Translation of `SyncContext::increment_subscription`: bump the ref count of an existing
entry, or allocate a fresh `subscription_id` and create the entry with
count 1.  Returns whether this was the first subscription. -/
def SyncContext.incrementSubscription (s : SyncContextState) (componentName : String) :
    Bool × SyncContextState :=
  match assocLookup s.subscriptions componentName with
  | some (subscriptionId, refCount) =>
    let subscriptions := assocSet s.subscriptions componentName (subscriptionId, refCount + 1)
    (false, { s with subscriptions := subscriptions })
  | none =>
    let subscriptionId := s.nextSubscriptionId
    let subscriptions := assocSet s.subscriptions componentName (subscriptionId, 1)
    (true, { s with subscriptions := subscriptions,
                    nextSubscriptionId := s.nextSubscriptionId + 1 })

/-- Translation of `SyncContext::decrement_subscription`: decrement the ref count; when it
reaches zero remove the entry and return its `subscription_id`. -/
def SyncContext.decrementSubscription (s : SyncContextState) (componentName : String) :
    Option Nat × SyncContextState :=
  match assocLookup s.subscriptions componentName with
  | none => (none, s)
  | some (subscriptionId, refCount) =>
    if refCount - 1 = 0 then
      (some subscriptionId, { s with subscriptions := assocRemove s.subscriptions componentName })
    else
      let subscriptions := assocSet s.subscriptions componentName (subscriptionId, refCount - 1)
      (none, { s with subscriptions := subscriptions })

/-- Translation of `SyncContext::send_subscription_request`: look the id up in the map
(`unwrap_or(0)`) and emit a `Subscribe` envelope. -/
def SyncContext.sendSubscriptionRequest (s : SyncContextState) (componentName : String)
    (entity : Option SerializableEntity) : SyncClientMessage :=
  let subscriptionId :=
    match assocLookup s.subscriptions componentName with
    | some (subscriptionId, _) => subscriptionId
    | none => 0
  .subscription ⟨subscriptionId, componentName, entity⟩

/-- One call of `SyncContext::subscribe_component::<T>` (a "bind").  On a
cache hit whose weak handle still upgrades, the ref count is bumped and the
cached view returned with nothing sent; otherwise a fresh view is allocated,
a (dead-on-return) weak handle cached, the ref count bumped, and — exactly
when this was the first subscription — a `Subscribe` sent.  Returns the view
identity, the new state, and the emitted messages. -/
def SyncContext.bind (s : SyncContextState) (componentName : String) :
    Nat × SyncContextState × List SyncClientMessage :=
  match assocLookup s.signalCache componentName with
  | some (viewId, true) =>
    let (_, s1) := SyncContext.incrementSubscription s componentName
    (viewId, s1, [])
  | _ =>
    let viewId := s.nextViewId
    let s1 : SyncContextState :=
      { s with signalCache := assocSet s.signalCache componentName (viewId, false),
               nextViewId := s.nextViewId + 1 }
    let (isFirst, s2) := SyncContext.incrementSubscription s1 componentName
    if isFirst then
      (viewId, s2, [SyncContext.sendSubscriptionRequest s2 componentName none])
    else
      (viewId, s2, [])

/-- One run of the `on_cleanup` hook registered by `subscribe_component`
(an "unbind"): decrement the ref count and, exactly when it reached zero,
send `Unsubscribe` with the released id. -/
def SyncContext.unbind (s : SyncContextState) (componentName : String) :
    SyncContextState × List SyncClientMessage :=
  match SyncContext.decrementSubscription s componentName with
  | (some subscriptionId, s1) => (s1, [.unsubscribe ⟨subscriptionId⟩])
  | (none, s1) => (s1, [])

/-! ## Helper lemmas -/

theorem assocLookup_assocSet_self {α β : Type} [DecidableEq α]
    (l : List (α × β)) (k : α) (v : β) : assocLookup (assocSet l k v) k = some v := by
  induction l with
  | nil => simp [assocSet, assocLookup]
  | cons p rest ih =>
    by_cases h : p.1 = k
    · simp [assocSet, assocLookup, h]
    · simp [assocSet, assocLookup, h, ih]

theorem assocLookup_assocSet_ne {α β : Type} [DecidableEq α]
    (l : List (α × β)) (k k' : α) (v : β) (h : k' ≠ k) :
    assocLookup (assocSet l k v) k' = assocLookup l k' := by
  have h' : k ≠ k' := Ne.symm h
  induction l with
  | nil => simp [assocSet, assocLookup, h']
  | cons p rest ih =>
    by_cases hp : p.1 = k
    · subst hp
      simp [assocSet, assocLookup, h']
    · simp only [assocSet, if_neg hp]
      by_cases hp' : p.1 = k'
      · simp [assocLookup, hp']
      · simp [assocLookup, hp', ih]

theorem assocLookup_mem {α β : Type} [DecidableEq α] {l : List (α × β)} {k : α} {v : β}
    (h : assocLookup l k = some v) : (k, v) ∈ l := by
  induction l with
  | nil => simp [assocLookup] at h
  | cons p rest ih =>
    by_cases hp : p.1 = k
    · rw [assocLookup, if_pos hp] at h
      have hv : p.2 = v := Option.some.inj h
      have hpv : p = (k, v) := Prod.ext hp hv
      rw [← hpv]
      exact List.mem_cons_self p rest
    · rw [assocLookup, if_neg hp] at h
      exact List.mem_cons_of_mem _ (ih h)

theorem assocLookup_assocRemove_self {α β : Type} [DecidableEq α]
    (l : List (α × β)) (k : α) : assocLookup (assocRemove l k) k = none := by
  induction l with
  | nil => simp [assocRemove, assocLookup]
  | cons p rest ih =>
    by_cases hp : p.1 = k
    · simpa [assocRemove, List.filter, hp] using ih
    · simpa [assocRemove, List.filter, hp, assocLookup] using ih

theorem natToLEBytes_length (k n : Nat) : (natToLEBytes k n).length = k := by
  induction k generalizing n with
  | zero => rfl
  | succ k ih => simp [natToLEBytes, ih]

theorem leBytesToNat_natToLEBytes (k n : Nat) :
    leBytesToNat (natToLEBytes k n) = n % 256 ^ k := by
  induction k generalizing n with
  | zero => simp [natToLEBytes, leBytesToNat, Nat.mod_one]
  | succ k ih =>
    simp only [natToLEBytes, leBytesToNat, ih]
    rw [Nat.pow_succ, Nat.mul_comm (256 ^ k) 256]
    have h1 : n % (256 * 256 ^ k) % 256 = n % 256 :=
      Nat.mod_mul_right_mod n 256 (256 ^ k)
    have h2 : n % (256 * 256 ^ k) / 256 = n / 256 % 256 ^ k :=
      Nat.mod_mul_right_div_self n 256 (256 ^ k)
    have h3 := Nat.div_add_mod (n % (256 * 256 ^ k)) 256
    omega

theorem readLE8_append (n : Nat) (rest : List Nat) (h : n < 2 ^ 64) :
    readLE8 (natToLEBytes 8 n ++ rest) = some (n, rest) := by
  have hlen : (natToLEBytes 8 n).length = 8 := natToLEBytes_length 8 n
  have hb : 256 ^ 8 = 2 ^ 64 := by norm_num
  unfold readLE8
  rw [if_neg (by simp [List.length_append, hlen])]
  have htake : (natToLEBytes 8 n ++ rest).take 8 = natToLEBytes 8 n :=
    List.take_left' hlen
  have hdrop : (natToLEBytes 8 n ++ rest).drop 8 = rest :=
    List.drop_left' hlen
  rw [htake, hdrop, leBytesToNat_natToLEBytes, hb, Nat.mod_eq_of_lt h]

theorem readBytes_append (xs rest : List Nat) :
    readBytes xs.length (xs ++ rest) = some (xs, rest) := by
  unfold readBytes
  rw [if_neg (by simp [List.length_append])]
  rw [List.take_left, List.drop_left]

theorem deserialize_serialize (p : NetworkPacket)
    (hname : p.type_name.length < 2 ^ 64) (hhash : p.schema_hash < 2 ^ 64)
    (hdata : p.data.length < 2 ^ 64) :
    deserializePacket (serializePacket p) = some p := by
  have h2 : readBytes p.data.length p.data = some (p.data, []) := by
    have := readBytes_append p.data []
    simpa using this
  unfold serializePacket deserializePacket
  simp only [readLE8_append _ _ hname]
  simp only [readBytes_append]
  simp only [readLE8_append _ _ hhash]
  simp only [readLE8_append _ _ hdata]
  simp only [h2]

/-! ## Claim theorems -/

/-- C1: for a registered component type, `apply_mutation_fn(world, m)`
first decodes `m.value` (failure → `ValidationError`, world untouched);
for a decodable value, the `DANGLING` sentinel spawns a fresh entity
carrying the decoded component and returns `Ok`; a live target entity gets
the component inserted/replaced and `Ok` is returned with all other
entities' components untouched; a dead target yields `NotFound` and an
untouched world. -/
theorem C1_apply_typed_mutation_cases {T : Type} (ops : ComponentOps T)
    (w : WorldModel T) (m : QueuedMutation)
    (hfresh : ∀ e ∈ w.live, e < w.nextEntity) :
    (ops.decode m.value = none →
      applyTypedMutation ops w m = (.validationError, w)) ∧
    (∀ v, ops.decode m.value = some v → m.entity = SerializableEntity.DANGLING →
      applyTypedMutation ops w m =
        (.ok, ⟨w.nextEntity + 1, w.live ++ [w.nextEntity], assocSet w.comp w.nextEntity v⟩) ∧
      w.nextEntity ∉ w.live ∧
      assocLookup (applyTypedMutation ops w m).2.comp w.nextEntity = some v) ∧
    (∀ v, ops.decode m.value = some v → m.entity ≠ SerializableEntity.DANGLING →
      m.entity.bits ∈ w.live →
      (applyTypedMutation ops w m).1 = .ok ∧
      (applyTypedMutation ops w m).2.live = w.live ∧
      assocLookup (applyTypedMutation ops w m).2.comp m.entity.bits = some v ∧
      ∀ e, e ≠ m.entity.bits →
        assocLookup (applyTypedMutation ops w m).2.comp e = assocLookup w.comp e) ∧
    (∀ v, ops.decode m.value = some v → m.entity ≠ SerializableEntity.DANGLING →
      m.entity.bits ∉ w.live →
      applyTypedMutation ops w m = (.notFound, w)) := by
  refine ⟨?_, ?_, ?_, ?_⟩
  · intro hdec
    simp [applyTypedMutation, hdec]
  · intro v hdec hd
    refine ⟨by simp [applyTypedMutation, hdec, hd], ?_, ?_⟩
    · intro hmem
      exact absurd (hfresh _ hmem) (Nat.lt_irrefl _)
    · simp [applyTypedMutation, hdec, hd, assocLookup_assocSet_self]
  · intro v hdec hd hlive
    refine ⟨?_, ?_, ?_, ?_⟩
    · simp [applyTypedMutation, hdec, hd, hlive]
    · simp [applyTypedMutation, hdec, hd, hlive]
    · simp [applyTypedMutation, hdec, hd, hlive, assocLookup_assocSet_self]
    · intro e he
      simp [applyTypedMutation, hdec, hd, hlive, assocLookup_assocSet_ne _ _ _ _ he]
  · intro v hdec hd hdead
    simp [applyTypedMutation, hdec, hd, hdead]

/-- Witness for C1 at concrete inputs: a world with live entities 1 and 2,
a decoder taking the first byte, and a mutation aimed at live entity 1. -/
theorem C1_witness :
    (∀ e ∈ ([1, 2] : List Nat), e < 5) ∧
    (applyTypedMutation ⟨fun l => l.head?, fun n => some [n]⟩
        ⟨5, [1, 2], [(1, 10)]⟩ ⟨0, some 1, ⟨1⟩, "Counter", [42]⟩).1 = .ok ∧
    assocLookup (applyTypedMutation (T := Nat) ⟨fun l => l.head?, fun n => some [n]⟩
        ⟨5, [1, 2], [(1, 10)]⟩ ⟨0, some 1, ⟨1⟩, "Counter", [42]⟩).2.comp 1 = some 42 := by
  have h := C1_apply_typed_mutation_cases (T := Nat) ⟨fun l => l.head?, fun n => some [n]⟩
    ⟨5, [1, 2], [(1, 10)]⟩ ⟨0, some 1, ⟨1⟩, "Counter", [42]⟩ (by decide)
  have h3 := h.2.2.1 42 rfl (by decide) (by decide)
  exact ⟨by decide, h3.1, h3.2.2.1⟩

/-- C9: a mutation that does not come back `Ok` leaves the world exactly as
it was — `apply_typed_mutation` returns the input world on
`ValidationError` and `NotFound`, and the queue-processing step returns the
input world whenever the type is unknown, the authorizer vetoes, or the
apply fails. -/
theorem C9_failed_mutation_preserves_world {T : Type}
    (descriptor : Option (ComponentOps T))
    (authorize : WorldModel T → QueuedMutation → MutationStatus)
    (w : WorldModel T) (m : QueuedMutation) :
    (∀ ops : ComponentOps T, (applyTypedMutation ops w m).1 ≠ .ok →
      (applyTypedMutation ops w m).2 = w) ∧
    ((processQueuedMutation descriptor authorize w m).1 ≠ .ok →
      (processQueuedMutation descriptor authorize w m).2 = w) := by
  have happly : ∀ ops : ComponentOps T, (applyTypedMutation ops w m).1 ≠ .ok →
      (applyTypedMutation ops w m).2 = w := by
    intro ops hne
    unfold applyTypedMutation at hne ⊢
    match hdec : ops.decode m.value with
    | none => simp [hdec]
    | some v =>
      simp only [hdec] at hne ⊢
      by_cases hd : m.entity = SerializableEntity.DANGLING
      · simp [hd] at hne
      · by_cases hlive : m.entity.bits ∈ w.live
        · simp [hd, hlive] at hne
        · simp [hd, hlive]
  refine ⟨happly, ?_⟩
  intro hne
  unfold processQueuedMutation at hne ⊢
  match descriptor with
  | none => simp
  | some ops =>
    simp only [] at hne ⊢
    by_cases hauth : authorize w m = .ok
    · simp only [hauth, if_pos rfl] at hne ⊢
      exact happly ops hne
    · simp [hauth]

/-- Witness for C9: an unauthorized mutation (constant `Forbidden` policy)
and a `NotFound` apply both return the input world unchanged. -/
theorem C9_witness :
    (applyTypedMutation (T := Nat) ⟨fun l => l.head?, fun n => some [n]⟩
        ⟨5, [1], [(1, 0)]⟩ ⟨0, some 1, ⟨3⟩, "Counter", [42]⟩).2 = ⟨5, [1], [(1, 0)]⟩ ∧
    (processQueuedMutation (T := Nat) (some ⟨fun l => l.head?, fun n => some [n]⟩)
        (fun _ _ => .forbidden) ⟨5, [1], [(1, 0)]⟩ ⟨0, some 1, ⟨1⟩, "Counter", [42]⟩).2 =
      ⟨5, [1], [(1, 0)]⟩ := by
  have h := C9_failed_mutation_preserves_world (T := Nat)
    (some ⟨fun l => l.head?, fun n => some [n]⟩) (fun _ _ => .forbidden)
    ⟨5, [1], [(1, 0)]⟩ ⟨0, some 1, ⟨1⟩, "Counter", [42]⟩
  have h' := C9_failed_mutation_preserves_world (T := Nat)
    (some ⟨fun l => l.head?, fun n => some [n]⟩) (fun _ _ => .forbidden)
    ⟨5, [1], [(1, 0)]⟩ ⟨0, some 1, ⟨3⟩, "Counter", [42]⟩
  exact ⟨h'.1 _ (by decide), h.2 (by decide)⟩

/-- C10: `snapshot_typed` is total and covers exactly the live entities
carrying the component: its entity column equals the component store's key
column, every carrier contributes the pair with its (possibly failed)
encoding, and an encoding failure contributes the empty byte vector instead
of failing or being omitted. -/
theorem C10_snapshot_total {T : Type} (ops : ComponentOps T) (w : WorldModel T) :
    (snapshotTyped ops w).map (fun q => q.1.bits) = w.comp.map Prod.fst ∧
    (∀ e t, (e, t) ∈ w.comp → (⟨e⟩, (ops.encode t).getD []) ∈ snapshotTyped ops w) ∧
    (∀ e t, (e, t) ∈ w.comp → ops.encode t = none →
      (⟨e⟩, ([] : List Nat)) ∈ snapshotTyped ops w) := by
  refine ⟨?_, ?_, ?_⟩
  · simp [snapshotTyped, List.map_map, Function.comp]
  · intro e t hmem
    exact List.mem_map_of_mem
      (fun p => ((⟨p.1⟩ : SerializableEntity), (ops.encode p.2).getD [])) hmem
  · intro e t hmem henc
    have h := List.mem_map_of_mem
      (fun p => ((⟨p.1⟩ : SerializableEntity), (ops.encode p.2).getD [])) hmem
    simpa [snapshotTyped, henc] using h

/-- Witness for C10: a snapshot over one live carrier whose encoder fails
still yields exactly one pair, with empty bytes. -/
theorem C10_witness :
    ((7, 1) ∈ ([(7, 1)] : List (Nat × Nat))) ∧
    ((⟨7⟩, ([] : List Nat)) ∈
      snapshotTyped (T := Nat) ⟨fun _ => none, fun _ => none⟩ ⟨3, [7], [(7, 1)]⟩) := by
  have h := C10_snapshot_total (T := Nat) ⟨fun _ => none, fun _ => none⟩ ⟨3, [7], [(7, 1)]⟩
  exact ⟨by decide, h.2.2 7 1 (by decide) rfl⟩

/-- C6 counterexample: two distinct type identities whose type paths share
the short name `Counter` are both accepted by `register_component`; the
second registration silently coexists with the first, with no failure of
any kind — refuting the claim that colliding short names are a fatal
configuration error. -/
theorem C6_counterexample_collision_coexists :
    (ComponentRegistration.mk 0 (shortTypeName "demo_a::Counter") none).typeId ≠
      (ComponentRegistration.mk 1 (shortTypeName "demo_b::Counter") none).typeId ∧
    (ComponentRegistration.mk 0 (shortTypeName "demo_a::Counter") none).typeName =
      (ComponentRegistration.mk 1 (shortTypeName "demo_b::Counter") none).typeName ∧
    ((SyncRegistry.mk []).registerComponent
        (ComponentRegistration.mk 0 (shortTypeName "demo_a::Counter") none)).registerComponent
      (ComponentRegistration.mk 1 (shortTypeName "demo_b::Counter") none) =
      SyncRegistry.mk [ComponentRegistration.mk 0 (shortTypeName "demo_a::Counter") none,
        ComponentRegistration.mk 1 (shortTypeName "demo_b::Counter") none] := by
  refine ⟨by decide, rfl, rfl⟩

/-- C6 as amended: registration is idempotent on type identity — a
registration whose `TypeId` is already present leaves the registry
unchanged — but short names play no part in the check: a registration with
a fresh `TypeId` is appended even when its short name collides with an
already-registered type, so the two colliding registrations coexist. -/
theorem C6_register_amended (r : SyncRegistry) (reg : ComponentRegistration) :
    (r.components.any (fun c => c.typeId = reg.typeId) = true →
      r.registerComponent reg = r) ∧
    (r.components.any (fun c => c.typeId = reg.typeId) = false →
      (r.registerComponent reg).components = r.components ++ [reg]) := by
  constructor
  · intro h
    simp [SyncRegistry.registerComponent, h]
  · intro h
    simp [SyncRegistry.registerComponent, h]

/-- Witness for C6 as amended: re-registering type identity 0 is a no-op;
registering a colliding-name type with identity 1 appends it. -/
theorem C6_witness :
    ((SyncRegistry.mk [⟨0, "Counter", none⟩]).components.any
        (fun c => c.typeId = (0 : Nat)) = true) ∧
    (SyncRegistry.mk [⟨0, "Counter", none⟩]).registerComponent ⟨0, "Other", none⟩ =
      SyncRegistry.mk [⟨0, "Counter", none⟩] ∧
    ((SyncRegistry.mk [⟨0, "Counter", none⟩]).components.any
        (fun c => c.typeId = (1 : Nat)) = false) ∧
    ((SyncRegistry.mk [⟨0, "Counter", none⟩]).registerComponent ⟨1, "Counter", none⟩).components =
      [⟨0, "Counter", none⟩] ++ [⟨1, "Counter", none⟩] := by
  have h0 := C6_register_amended (SyncRegistry.mk [⟨0, "Counter", none⟩]) ⟨0, "Other", none⟩
  have h1 := C6_register_amended (SyncRegistry.mk [⟨0, "Counter", none⟩]) ⟨1, "Counter", none⟩
  exact ⟨by decide, h0.1 (by decide), by decide, h1.2 (by decide)⟩

/-- C7 counterexample: appending a garbage byte to a well-formed frame
makes the length prefix `L = 24` inconsistent with the 25 bytes that follow
it, yet `decode` succeeds — the prefix value is read and then discarded, so
a length mismatch is not detected. -/
theorem C7_counterexample_length_ignored :
    leBytesToNat ((EventworkBincodeCodec.encode ⟨[], 0, []⟩ ++ [7]).take 8) = 24 ∧
    ((EventworkBincodeCodec.encode ⟨[], 0, []⟩ ++ [7]).drop 8).length = 25 ∧
    EventworkBincodeCodec.decode (EventworkBincodeCodec.encode ⟨[], 0, []⟩ ++ [7]) =
      .ok ⟨[], 0, []⟩ :=
  ⟨rfl, rfl, rfl⟩

/-- C7 as amended: `decode` reads the 8-byte little-endian prefix but
ignores its value — its result depends only on the bytes after the prefix —
and it fails exactly when the input is shorter than 8 bytes or when bincode
deserialization of the remainder fails (which covers truncation inside the
body); a length prefix inconsistent with the remainder is not, by itself,
detected. -/
theorem C7_decode_amended (val : List Nat) :
    (val.length < 8 → EventworkBincodeCodec.decode val = .error .serialization) ∧
    (∀ a b rest : List Nat, a.length = 8 → b.length = 8 →
      EventworkBincodeCodec.decode (a ++ rest) = EventworkBincodeCodec.decode (b ++ rest)) ∧
    (8 ≤ val.length → deserializePacket (val.drop 8) = none →
      EventworkBincodeCodec.decode val = .error .serialization) ∧
    (∀ p, 8 ≤ val.length → deserializePacket (val.drop 8) = some p →
      EventworkBincodeCodec.decode val = .ok p) := by
  refine ⟨?_, ?_, ?_, ?_⟩
  · intro h
    simp [EventworkBincodeCodec.decode, h]
  · intro a b rest ha hb
    have hda : (a ++ rest).drop 8 = rest := List.drop_left' ha
    have hdb : (b ++ rest).drop 8 = rest := List.drop_left' hb
    have hla : ¬(a ++ rest).length < 8 := by simp [List.length_append, ha]
    have hlb : ¬(b ++ rest).length < 8 := by simp [List.length_append, hb]
    unfold EventworkBincodeCodec.decode
    rw [if_neg hla, if_neg hlb, hda, hdb]
  · intro h hdes
    simp [EventworkBincodeCodec.decode, Nat.not_lt.mpr h, hdes]
  · intro p h hdes
    simp [EventworkBincodeCodec.decode, Nat.not_lt.mpr h, hdes]

/-- Witness for C7 as amended: a 7-byte input is rejected, and a frame
whose body deserializes is accepted whatever its prefix says. -/
theorem C7_witness :
    (([1, 2, 3, 4, 5, 6, 7] : List Nat).length < 8) ∧
    EventworkBincodeCodec.decode [1, 2, 3, 4, 5, 6, 7] = .error .serialization ∧
    deserializePacket ((EventworkBincodeCodec.encode ⟨[], 0, []⟩ ++ [7]).drop 8) =
      some ⟨[], 0, []⟩ ∧
    EventworkBincodeCodec.decode (EventworkBincodeCodec.encode ⟨[], 0, []⟩ ++ [7]) =
      .ok ⟨[], 0, []⟩ := by
  have h1 := C7_decode_amended [1, 2, 3, 4, 5, 6, 7]
  have h2 := C7_decode_amended (EventworkBincodeCodec.encode ⟨[], 0, []⟩ ++ [7])
  exact ⟨by decide, h1.1 (by decide), rfl, h2.2.2.2 ⟨[], 0, []⟩ (by decide) rfl⟩

/-- C8: the wire codec's `decode` is a left inverse of `encode` — for every
`NetworkPacket` whose string, hash and data fit the `u64` fields the Rust
types impose, `decode (encode p)` succeeds and returns `p`. -/
theorem C8_decode_encode_roundtrip (p : NetworkPacket)
    (hname : p.type_name.length < 2 ^ 64) (hhash : p.schema_hash < 2 ^ 64)
    (hdata : p.data.length < 2 ^ 64) :
    EventworkBincodeCodec.decode (EventworkBincodeCodec.encode p) = .ok p := by
  have hlen : (natToLEBytes 8 (serializePacket p).length).length = 8 :=
    natToLEBytes_length 8 _
  have henc : EventworkBincodeCodec.encode p =
      natToLEBytes 8 (serializePacket p).length ++ serializePacket p := rfl
  have hnl : ¬(natToLEBytes 8 (serializePacket p).length ++ serializePacket p).length < 8 := by
    simp [List.length_append, hlen]
  have hdrop : (natToLEBytes 8 (serializePacket p).length ++ serializePacket p).drop 8 =
      serializePacket p := List.drop_left' hlen
  rw [henc]
  unfold EventworkBincodeCodec.decode
  rw [if_neg hnl, hdrop, deserialize_serialize p hname hhash hdata]

/-- Witness for C8 at a concrete packet. -/
theorem C8_witness :
    (([104, 105] : List Nat).length < 2 ^ 64) ∧ ((7 : Nat) < 2 ^ 64) ∧
    (([1, 2, 3] : List Nat).length < 2 ^ 64) ∧
    EventworkBincodeCodec.decode (EventworkBincodeCodec.encode ⟨[104, 105], 7, [1, 2, 3]⟩) =
      .ok ⟨[104, 105], 7, [1, 2, 3]⟩ :=
  ⟨by decide, by decide, by decide,
    C8_decode_encode_roundtrip ⟨[104, 105], 7, [1, 2, 3]⟩ (by decide) (by decide) (by decide)⟩

/-- C2 (code bug): the client ingress handler never touches the raw store.
At the failing input — a `Snapshot` for entity 7, type `Counter`, bytes
`[3]`, arriving at an empty store — the handler returns `Ok` with the store
still empty instead of setting `raw[(7, Counter)] = [3]`; a
`ComponentRemoved` and an `EntityRemoved` for an existing entry likewise
leave the entry in place instead of deleting it. -/
theorem C2_handle_sync_item_stub :
    handleSyncItem [] (.snapshot 1 ⟨7⟩ "Counter" [3]) = (.ok (), []) ∧
    handleSyncItem [] (.update 1 ⟨7⟩ "Counter" [3]) = (.ok (), []) ∧
    handleSyncItem [((7, "Counter"), [3])] (.componentRemoved 1 ⟨7⟩ "Counter") =
      (.ok (), [((7, "Counter"), [3])]) ∧
    handleSyncItem [((7, "Counter"), [3])] (.entityRemoved 1 ⟨7⟩) =
      (.ok (), [((7, "Counter"), [3])]) :=
  ⟨rfl, rfl, rfl, rfl⟩

/-- C4 counterexample: `mutate` against a registry with no serializer for
`Counter` sends nothing — but the pending mutation state entry for the
returned `request_id` (1) *is* created, refuting "no mutation state entry
is created". -/
theorem C4_counterexample_state_created :
    (SyncClient.mutate (J := Unit) ⟨[]⟩ ⟨0, []⟩ ⟨7⟩ "Counter" ()).2.2 = [] ∧
    assocLookup
      (SyncClient.mutate (J := Unit) ⟨[]⟩ ⟨0, []⟩ ⟨7⟩ "Counter" ()).2.1.mutations 1 =
      some (MutationState.newPending 1) :=
  ⟨rfl, rfl⟩

/-- C4 as amended: when the JSON→bincode conversion fails inside `mutate`,
the failure is local in that no `Mutate` message is sent — but the pending
mutation state entry keyed by the returned `request_id` has already been
recorded (it is inserted before the conversion is attempted) and remains
pending. -/
theorem C4_mutate_failure_amended {J : Type} (registry : ComponentTypeRegistry J)
    (s : SyncClientState) (entity : SerializableEntity) (componentType : String)
    (value : J) (h : registry.serializeByName componentType value = none) :
    (SyncClient.mutate registry s entity componentType value).1 = s.nextRequestId + 1 ∧
    (SyncClient.mutate registry s entity componentType value).2.2 = [] ∧
    assocLookup (SyncClient.mutate registry s entity componentType value).2.1.mutations
      (s.nextRequestId + 1) = some (MutationState.newPending (s.nextRequestId + 1)) := by
  refine ⟨?_, ?_, ?_⟩
  · simp [SyncClient.mutate, h]
  · simp [SyncClient.mutate, h]
  · simp [SyncClient.mutate, h, assocLookup_assocSet_self]

/-- Witness for C4 as amended at a concrete empty registry. -/
theorem C4_witness :
    (ComponentTypeRegistry.serializeByName (J := Unit) ⟨[]⟩ "Counter" () = none) ∧
    (SyncClient.mutate (J := Unit) ⟨[]⟩ ⟨0, []⟩ ⟨7⟩ "Counter" ()).2.2 = [] ∧
    assocLookup
      (SyncClient.mutate (J := Unit) ⟨[]⟩ ⟨0, []⟩ ⟨7⟩ "Counter" ()).2.1.mutations 1 =
      some (MutationState.newPending 1) := by
  have h := C4_mutate_failure_amended (J := Unit) ⟨[]⟩ ⟨0, []⟩ ⟨7⟩ "Counter" () rfl
  exact ⟨rfl, h.2.1, h.2.2⟩

/-- C5 counterexample: a `MutationResponse` whose `request_id` (5) matches
no tracked mutation does *not* leave the state map unchanged — the entry
API's `or_insert_with` branch inserts a fresh entry for it. -/
theorem C5_counterexample_unknown_id_inserts :
    SyncClient.handleMutationResponse ⟨0, []⟩ ⟨some 5, .ok, none⟩ =
      ⟨0, [(5, ⟨5, some .ok, none⟩)]⟩ :=
  rfl

/-- C5 as amended: a response whose `request_id` matches a tracked mutation
updates that entry's status and message (other entries untouched); a
response with an unknown `request_id` is not ignored — a fresh entry
carrying the response's status and message is inserted (other entries
untouched); only a response with no `request_id` at all leaves the map
unchanged. -/
theorem C5_response_amended (s : SyncClientState) (response : MutationResponse) :
    (response.requestId = none → SyncClient.handleMutationResponse s response = s) ∧
    (∀ rid state, response.requestId = some rid →
      assocLookup s.mutations rid = some state →
      assocLookup (SyncClient.handleMutationResponse s response).mutations rid =
        some ⟨state.requestId, some response.status, response.message⟩ ∧
      ∀ k, k ≠ rid →
        assocLookup (SyncClient.handleMutationResponse s response).mutations k =
          assocLookup s.mutations k) ∧
    (∀ rid, response.requestId = some rid →
      assocLookup s.mutations rid = none →
      assocLookup (SyncClient.handleMutationResponse s response).mutations rid =
        some ⟨rid, some response.status, response.message⟩ ∧
      ∀ k, k ≠ rid →
        assocLookup (SyncClient.handleMutationResponse s response).mutations k =
          assocLookup s.mutations k) := by
  refine ⟨?_, ?_, ?_⟩
  · intro h
    simp [SyncClient.handleMutationResponse, h]
  · intro rid state hrid hstate
    constructor
    · simp [SyncClient.handleMutationResponse, hrid, hstate, assocLookup_assocSet_self]
    · intro k hk
      simp [SyncClient.handleMutationResponse, hrid, hstate,
        assocLookup_assocSet_ne _ _ _ _ hk]
  · intro rid hrid hstate
    constructor
    · simp [SyncClient.handleMutationResponse, hrid, hstate, assocLookup_assocSet_self]
    · intro k hk
      simp [SyncClient.handleMutationResponse, hrid, hstate,
        assocLookup_assocSet_ne _ _ _ _ hk]

/-- Witness for C5 as amended: a matching response flips the tracked entry
to `Ok`; an id-less response changes nothing. -/
theorem C5_witness :
    ((⟨some 4, .ok, none⟩ : MutationResponse).requestId = some 4) ∧
    assocLookup
      (SyncClient.handleMutationResponse ⟨4, [(4, MutationState.newPending 4)]⟩
        ⟨some 4, .ok, none⟩).mutations 4 = some ⟨4, some .ok, none⟩ ∧
    SyncClient.handleMutationResponse ⟨4, [(4, MutationState.newPending 4)]⟩
      ⟨none, .ok, none⟩ = ⟨4, [(4, MutationState.newPending 4)]⟩ := by
  have h := C5_response_amended ⟨4, [(4, MutationState.newPending 4)]⟩ ⟨some 4, .ok, none⟩
  have h' := C5_response_amended ⟨4, [(4, MutationState.newPending 4)]⟩ ⟨none, .ok, none⟩
  exact ⟨rfl, (h.2.1 4 (MutationState.newPending 4) rfl (by decide)).1, h'.1 rfl⟩

/-- C3 counterexample: two successive binds of `Counter` from a fresh
context send exactly one `Subscribe` (the second sends nothing), but the
second bind does *not* reuse the cached view — the cache's weak handle is
already dead, so a fresh view (identity 1, not 0) is allocated. -/
theorem C3_counterexample_second_bind_fresh_view :
    (SyncContext.bind (⟨[], 0, [], 0⟩ : SyncContextState) "Counter").1 = 0 ∧
    (SyncContext.bind (⟨[], 0, [], 0⟩ : SyncContextState) "Counter").2.2 =
      [.subscription ⟨0, "Counter", none⟩] ∧
    (SyncContext.bind (SyncContext.bind (⟨[], 0, [], 0⟩ : SyncContextState) "Counter").2.1
        "Counter").1 = 1 ∧
    (SyncContext.bind (SyncContext.bind (⟨[], 0, [], 0⟩ : SyncContextState) "Counter").2.1
        "Counter").2.2 = [] := by
  refine ⟨rfl, rfl, rfl, rfl⟩

/-- C3 as amended: only the first bind of a component type sends a
`Subscribe` — later binds send nothing and only increment the reference
count (though they allocate a fresh typed view rather than reusing the
cached one, whose weak handle is dead by then); the `subscription_id`
allocated on the first bind is kept by every later bind and unbind above
zero; and an `Unsubscribe` carrying that id is sent exactly when the
reference count drops to zero (an unbind with no live subscription sends
nothing).  `hdead` is the state invariant that no cached weak handle can
still upgrade. -/
theorem C3_bind_unbind_amended (s : SyncContextState) (componentName : String)
    (hdead : ∀ p ∈ s.signalCache, p.2.2 = false) :
    (assocLookup s.subscriptions componentName = none →
      (SyncContext.bind s componentName).1 = s.nextViewId ∧
      (SyncContext.bind s componentName).2.2 =
        [.subscription ⟨s.nextSubscriptionId, componentName, none⟩] ∧
      assocLookup (SyncContext.bind s componentName).2.1.subscriptions componentName =
        some (s.nextSubscriptionId, 1)) ∧
    (∀ subId n, assocLookup s.subscriptions componentName = some (subId, n) →
      (SyncContext.bind s componentName).1 = s.nextViewId ∧
      (SyncContext.bind s componentName).2.2 = [] ∧
      assocLookup (SyncContext.bind s componentName).2.1.subscriptions componentName =
        some (subId, n + 1)) ∧
    (∀ subId n, assocLookup s.subscriptions componentName = some (subId, n) → 2 ≤ n →
      (SyncContext.unbind s componentName).2 = [] ∧
      assocLookup (SyncContext.unbind s componentName).1.subscriptions componentName =
        some (subId, n - 1)) ∧
    (∀ subId, assocLookup s.subscriptions componentName = some (subId, 1) →
      (SyncContext.unbind s componentName).2 = [.unsubscribe ⟨subId⟩] ∧
      assocLookup (SyncContext.unbind s componentName).1.subscriptions componentName =
        none) ∧
    (assocLookup s.subscriptions componentName = none →
      SyncContext.unbind s componentName = (s, [])) := by
  have hcache : ∀ out : Nat × SyncContextState × List SyncClientMessage,
      (match assocLookup s.signalCache componentName with
        | some (viewId, true) =>
          let r := SyncContext.incrementSubscription s componentName
          (viewId, r.2, ([] : List SyncClientMessage))
        | _ => out) = out := by
    intro out
    match hc : assocLookup s.signalCache componentName with
    | none => rfl
    | some (v, b) =>
      have hb : b = false := hdead _ (assocLookup_mem hc)
      subst hb
      rfl
  refine ⟨?_, ?_, ?_, ?_, ?_⟩
  · intro hsub
    simp only [SyncContext.bind]
    rw [hcache]
    simp [SyncContext.incrementSubscription, hsub, SyncContext.sendSubscriptionRequest,
      assocLookup_assocSet_self]
  · intro subId n hsub
    simp only [SyncContext.bind]
    rw [hcache]
    simp [SyncContext.incrementSubscription, hsub, assocLookup_assocSet_self]
  · intro subId n hsub hn
    have hne : ¬(n - 1 = 0) := by omega
    refine ⟨?_, ?_⟩
    · simp [SyncContext.unbind, SyncContext.decrementSubscription, hsub, hne]
    · simp [SyncContext.unbind, SyncContext.decrementSubscription, hsub, hne,
        assocLookup_assocSet_self]
  · intro subId hsub
    refine ⟨?_, ?_⟩
    · simp [SyncContext.unbind, SyncContext.decrementSubscription, hsub]
    · simp [SyncContext.unbind, SyncContext.decrementSubscription, hsub,
        assocLookup_assocRemove_self]
  · intro hsub
    simp [SyncContext.unbind, SyncContext.decrementSubscription, hsub]

/-- Witness for C3 as amended: with one live binding of `Counter` under
subscription id 3, a further bind sends nothing and bumps the count, and
the final unbind sends `Unsubscribe` with id 3. -/
theorem C3_witness :
    (SyncContext.bind (⟨[("Counter", 3, 1)], 4, [], 0⟩ : SyncContextState) "Counter").2.2 =
      [] ∧
    assocLookup (SyncContext.bind (⟨[("Counter", 3, 1)], 4, [], 0⟩ : SyncContextState)
        "Counter").2.1.subscriptions "Counter" = some (3, 2) ∧
    (SyncContext.unbind (⟨[("Counter", 3, 1)], 4, [], 0⟩ : SyncContextState) "Counter").2 =
      [.unsubscribe ⟨3⟩] := by
  have h := C3_bind_unbind_amended (⟨[("Counter", 3, 1)], 4, [], 0⟩ : SyncContextState)
    "Counter" (by intro p hp; simp at hp)
  have h2 := h.2.1 3 1 (by decide)
  exact ⟨h2.2.1, h2.2.2, (h.2.2.2.1 3 (by decide)).1⟩

end Eventwork
